import Mathlib

/-!
Verification development for the `wg-clients` generator (src/src/main.rs).

The Rust program reads a JSON configuration describing a WireGuard server and
its clients, generates missing client private keys (32 random bytes, standard
base64), renders a per-client profile, writes a `.conf` file and a QR PNG per
client, and writes back an updated manifest.

The shallow embedding below translates the data model and the operations from
the source.  Randomness is passed explicitly (the byte draws produced by
`rng.fill`), and filesystem / QR effects are modelled by an explicit oracle
describing the success of each external call; a Rust panic is modelled as an
aborted run (`Option.none` / `Except.error`).
-/

set_option linter.unusedVariables false
set_option maxRecDepth 16384

namespace WgClients

/-- Embeds `struct ServerConfig` (main.rs:11-17). -/
structure ServerConfig where
  host : String
  port : String
  dns : String
  subnet : String
  public_key : String
deriving DecidableEq

/-- Embeds `struct ClientConfig` (main.rs:19-25); `private_key` is optional. -/
structure ClientConfig where
  name : String
  private_key : Option String
  address : String
deriving DecidableEq

/-- Embeds `struct Config` (main.rs:27-31). -/
structure Config where
  server : ServerConfig
  client : List ClientConfig
deriving DecidableEq

/-- The literal placeholder token `"\x7baddress\x7d"` from main.rs:42. -/
def placeholderToken : String := "\x7baddress\x7d"

/-- Fuel-indexed replacement of every leftmost non-overlapping occurrence of
`pat` by `rep`, as Rust's `str::replace` does for a non-empty pattern
(main.rs:42 always calls it with the fixed non-empty placeholder token).
The fuel is always instantiated with the length of the scanned list. -/
def replaceAllAux (pat rep : List Char) : Nat → List Char → List Char
  | _, [] => []
  | 0, s => s
  | fuel+1, c :: rest =>
    if pat.isPrefixOf (c :: rest) then
      rep ++ replaceAllAux pat rep fuel (List.drop pat.length (c :: rest))
    else
      c :: replaceAllAux pat rep fuel rest

/-- `replaceAll s pat rep` replaces every leftmost non-overlapping occurrence
of `pat` in `s` by `rep` (Rust `str::replace` on a non-empty pattern). -/
def replaceAll (s pat rep : List Char) : List Char :=
  replaceAllAux pat rep s.length s

/-- String wrapper for `replaceAll`. -/
def replaceStr (s pat rep : String) : String :=
  (replaceAll s.toList pat.toList rep.toList).asString

/-- Embeds main.rs:42: `server.subnet.replace("\x7baddress\x7d", &client.address)`. -/
def resolvedAddress (subnet addr : String) : String :=
  replaceStr subnet placeholderToken addr

/-- Embeds `generate_client_config` (main.rs:41-64).  The Rust function
panics when `client.private_key` is `None` (main.rs:43-45); the panic is
modelled as `Except.error` carrying the panic message.  The `Except.ok`
payload is the exact `format!` result of main.rs:47-63. -/
def generate_client_config (client : ClientConfig) (server : ServerConfig) :
    Except String String :=
  match client.private_key with
  | none => Except.error ("Private key not provided for client " ++ client.name)
  | some private_key =>
    Except.ok
      ("[Interface]\nPrivateKey = " ++ private_key ++
        "\nAddress = " ++ resolvedAddress server.subnet client.address ++
        "\nDNS = " ++ server.dns ++
        "\n\n[Peer]\nPublicKey = " ++ server.public_key ++
        "\nEndpoint = " ++ server.host ++ ":" ++ server.port ++
        "\nAllowedIPs = 0.0.0.0/0\nPersistentKeepalive = 25\n")

/-- The standard base64 alphabet used by `engine::general_purpose::STANDARD`. -/
def b64Alphabet : List Char :=
  "ABCDEFGHIJKLMNOPQRSTUVWXYZabcdefghijklmnopqrstuvwxyz0123456789+/".toList

/-- The base64 digit character for a 6-bit value. -/
def b64Char (n : Nat) : Char := b64Alphabet.getD n 'A'

/-- Index scan used by `b64Val`. -/
def b64ValAux : List Char → Nat → Char → Option Nat
  | [], _, _ => none
  | a :: rest, i, c => if a = c then some i else b64ValAux rest (i + 1) c

/-- The 6-bit value of a base64 digit character, `none` for non-alphabet chars. -/
def b64Val (c : Char) : Option Nat := b64ValAux b64Alphabet 0 c

/-- Standard base64 encoding (with `=` padding) of a byte list, as performed
by `STANDARD.encode` at main.rs:38. -/
def encodeB64 : List Nat → List Char
  | [] => []
  | [b1] => [b64Char (b1 / 4), b64Char (b1 % 4 * 16), '=', '=']
  | [b1, b2] =>
    [b64Char (b1 / 4), b64Char (b1 % 4 * 16 + b2 / 16), b64Char (b2 % 16 * 4), '=']
  | b1 :: b2 :: b3 :: rest =>
    b64Char (b1 / 4) :: b64Char (b1 % 4 * 16 + b2 / 16) ::
      b64Char (b2 % 16 * 4 + b3 / 64) :: b64Char (b3 % 64) :: encodeB64 rest

/-- Standard base64 decoding (requiring well-formed `=` padding); returns the
decoded byte list or `none` for invalid input. -/
def decodeB64 : List Char → Option (List Nat)
  | [] => some []
  | c1 :: c2 :: c3 :: c4 :: rest =>
    if c3 = '=' then
      if c4 = '=' ∧ rest = [] then
        match b64Val c1, b64Val c2 with
        | some v1, some v2 => some [v1 * 4 + v2 / 16]
        | _, _ => none
      else none
    else if c4 = '=' then
      if rest = [] then
        match b64Val c1, b64Val c2, b64Val c3 with
        | some v1, some v2, some v3 =>
          some [v1 * 4 + v2 / 16, v2 % 16 * 16 + v3 / 4]
        | _, _, _ => none
      else none
    else
      match b64Val c1, b64Val c2, b64Val c3, b64Val c4, decodeB64 rest with
      | some v1, some v2, some v3, some v4, some bs =>
        some ((v1 * 4 + v2 / 16) :: (v2 % 16 * 16 + v3 / 4) ::
          (v3 % 4 * 64 + v4) :: bs)
      | _, _, _, _, _ => none
  | _ => none

/-- Embeds `generate_private_key` (main.rs:34-39): base64-encode the 32 random
bytes filled by `rng.fill`.  The random draw is the explicit argument. -/
def generate_private_key (randomBytes : List Nat) : String :=
  (encodeB64 randomBytes).asString

/-- A client updated with a freshly generated private key (main.rs:116). -/
def withGeneratedKey (c : ClientConfig) (bytes : List Nat) : ClientConfig :=
  { c with private_key := some (generate_private_key bytes) }

/-- Embeds the key-fill loop of `main` (main.rs:114-119): walk the clients in
order, generating a key for each client whose `private_key` is `None`.
`gen i` is the i-th 32-byte random draw produced by the rng. -/
def fillKeysAux (gen : Nat → List Nat) : Nat → List ClientConfig → List ClientConfig
  | _, [] => []
  | i, c :: rest =>
    match c.private_key with
    | some _ => c :: fillKeysAux gen i rest
    | none => withGeneratedKey c (gen i) :: fillKeysAux gen (i + 1) rest

/-- The configuration after the key-fill pass of main.rs:114-119. -/
def fillConfig (gen : Nat → List Nat) (cfg : Config) : Config :=
  { cfg with client := fillKeysAux gen 0 cfg.client }

/-- JSON values (strings, arrays, objects suffice for this schema). -/
inductive Json where
  | str : String → Json
  | arr : List Json → Json
  | obj : List (String × Json) → Json

/-- Field lookup in a JSON object, first match wins. -/
def getField : List (String × Json) → String → Option Json
  | [], _ => none
  | (k, v) :: rest, key => if k = key then some v else getField rest key

/-- Serde serialization of `ClientConfig` (main.rs:19-25): fields in
declaration order, `private_key` skipped when `None`
(`skip_serializing_if = "Option::is_none"`). -/
def clientFields (c : ClientConfig) : List (String × Json) :=
  ("name", Json.str c.name) ::
    (match c.private_key with
     | some k => [("private_key", Json.str k)]
     | none => []) ++ [("address", Json.str c.address)]

/-- `ClientConfig` as a JSON object. -/
def clientToJson (c : ClientConfig) : Json := Json.obj (clientFields c)

/-- Serde serialization of `ServerConfig` (main.rs:11-17). -/
def serverFields (s : ServerConfig) : List (String × Json) :=
  [("host", Json.str s.host), ("port", Json.str s.port), ("dns", Json.str s.dns),
    ("subnet", Json.str s.subnet), ("public_key", Json.str s.public_key)]

/-- `ServerConfig` as a JSON object. -/
def serverToJson (s : ServerConfig) : Json := Json.obj (serverFields s)

/-- Serde serialization of `Config` (main.rs:27-31), the shape written to
`updated_config.json` at main.rs:141. -/
def configToJson (cfg : Config) : Json :=
  Json.obj [("server", serverToJson cfg.server),
    ("client", Json.arr (cfg.client.map clientToJson))]

/-- Extract a JSON string. -/
def parseStr : Json → Option String
  | Json.str s => some s
  | _ => none

/-- Serde deserialization of `ServerConfig`: all five fields required. -/
def parseServer : Json → Option ServerConfig
  | Json.obj fields =>
    match (getField fields "host").bind parseStr,
        (getField fields "port").bind parseStr,
        (getField fields "dns").bind parseStr,
        (getField fields "subnet").bind parseStr,
        (getField fields "public_key").bind parseStr with
    | some h, some p, some d, some sn, some pk =>
      some { host := h, port := p, dns := d, subnet := sn, public_key := pk }
    | _, _, _, _, _ => none
  | _ => none

/-- Serde deserialization of `ClientConfig`: `name` and `address` required,
`private_key` optional (absent field becomes `None`). -/
def parseClient : Json → Option ClientConfig
  | Json.obj fields =>
    match (getField fields "name").bind parseStr,
        (getField fields "address").bind parseStr with
    | some n, some a =>
      match getField fields "private_key" with
      | none => some { name := n, private_key := none, address := a }
      | some j =>
        match parseStr j with
        | some k => some { name := n, private_key := some k, address := a }
        | none => none
    | _, _ => none
  | _ => none

/-- Deserialize a list of clients, failing if any element fails. -/
def parseClients : List Json → Option (List ClientConfig)
  | [] => some []
  | j :: rest =>
    match parseClient j, parseClients rest with
    | some c, some cs => some (c :: cs)
    | _, _ => none

/-- Serde deserialization of `Config` (the input model of main.rs:94). -/
def parseConfig : Json → Option Config
  | Json.obj fields =>
    match getField fields "server", getField fields "client" with
    | some sj, some (Json.arr cj) =>
      match parseServer sj, parseClients cj with
      | some sv, some cl => some { server := sv, client := cl }
      | _, _ => none
    | _, _ => none
  | _ => none

/-- Oracle describing the outcome of each external call made by the per-client
loop (main.rs:122-137) and the manifest write (main.rs:141): whether
`fs::write` of a conf file succeeds, whether `QrCode::new` succeeds, whether
`image.save` succeeds, and whether the final manifest write succeeds. -/
structure WriteOracle where
  confWrite : String → String → Bool
  qrNew : String → Bool
  imgSave : String → Bool
  manifestWrite : Bool

/-- Observable events of a run. -/
inductive RunEvent where
  | confWritten : String → RunEvent
  | confFailed : String → RunEvent
  | qrWritten : String → RunEvent
  | manifestWritten : RunEvent
  | manifestFailed : RunEvent
deriving DecidableEq

/-- Embeds the per-client loop of `main` (main.rs:122-137).  A failed conf
write is only logged (main.rs:127-131); `generate_qr_code_png` (main.rs:66-70)
calls `unwrap()` on both `QrCode::new` and `image.save`, so a failure of
either panics and aborts the run (`none`).  A missing private key panics
inside `generate_client_config` (also `none`). -/
def processClients (w : WriteOracle) (server : ServerConfig) :
    List ClientConfig → Option (List RunEvent)
  | [] => some []
  | c :: rest =>
    match generate_client_config c server with
    | Except.error _ => none
    | Except.ok content =>
      let ev := if w.confWrite ("wg-clients/" ++ c.name ++ ".conf") content
        then RunEvent.confWritten c.name
        else RunEvent.confFailed c.name
      if w.qrNew content then
        if w.imgSave ("wg-clients/" ++ c.name ++ "_qr.png") then
          match processClients w server rest with
          | some evs => some (ev :: RunEvent.qrWritten c.name :: evs)
          | none => none
        else none
      else none

/-- Embeds the tail of `main` after the key-fill pass (main.rs:122-145): the
per-client loop followed by the manifest write, whose failure is only logged
(main.rs:141-145). -/
def runAfterFill (w : WriteOracle) (cfg : Config) : Option (List RunEvent) :=
  match processClients w cfg.server cfg.client with
  | some evs =>
    some (evs ++ [if w.manifestWrite then RunEvent.manifestWritten
      else RunEvent.manifestFailed])
  | none => none

/-- Modelled from the spec: the spec's §4.2 step 1 describes "exactly one
substitution of the placeholder token" — i.e. replacing only the first
occurrence.  This definition follows the spec's words, to be compared with
the source-derived `replaceAll`. -/
def spec_replaceFirstAux (pat rep : List Char) : Nat → List Char → List Char
  | _, [] => []
  | 0, s => s
  | fuel+1, c :: rest =>
    if pat.isPrefixOf (c :: rest) then
      rep ++ List.drop pat.length (c :: rest)
    else
      c :: spec_replaceFirstAux pat rep fuel rest

/-- Modelled from the spec: string wrapper replacing only the first
occurrence of `pat` in `s`. -/
def spec_replaceFirst (s pat rep : String) : String :=
  (spec_replaceFirstAux pat.toList rep.toList s.toList.length s.toList).asString

/-- The spec's §4.2 step 3 block format: a list of lines, each terminated by a
newline (so the last line carries the trailing newline and a blank line is an
empty element). -/
def profileFromLines (lines : List String) : String :=
  lines.foldr (fun l acc => l ++ "\n" ++ acc) ""

/-- A fixed rng stream for concrete witnesses: every draw is 32 zero bytes. -/
def genZero : Nat → List Nat := fun _ => List.replicate 32 0

/-- The spec §8 scenario server. -/
def serverSpec : ServerConfig :=
  { host := "vpn.example.com", port := "51820", dns := "1.1.1.1",
    subnet := "10.0.0.\x7baddress\x7d/24", public_key := "SERVERPUBKEY" }

/-- The spec §8 scenario client, with a present private key. -/
def clientSpec : ClientConfig :=
  { name := "alice", private_key := some "CLIENTPRIVKEY", address := "5" }

/-- A second client identical to `clientSpec` except for its name. -/
def clientSpecRenamed : ClientConfig :=
  { name := "bob", private_key := some "CLIENTPRIVKEY", address := "5" }

/-- A client with no private key in the input. -/
def clientNoKey : ClientConfig :=
  { name := "alice", private_key := none, address := "5" }

/-- A client carrying an empty-string private key in the input. -/
def clientEmptyKey : ClientConfig :=
  { name := "alice", private_key := some "", address := "5" }

/-- An oracle on which every external call succeeds. -/
def oracleAllOk : WriteOracle :=
  { confWrite := fun _ _ => true, qrNew := fun _ => true,
    imgSave := fun _ => true, manifestWrite := true }

/-- An oracle on which saving a QR image file fails (everything else
succeeds). -/
def oracleImgFails : WriteOracle :=
  { confWrite := fun _ _ => true, qrNew := fun _ => true,
    imgSave := fun _ => false, manifestWrite := true }

/-- A two-client configuration with keys present, for run-level witnesses. -/
def cfgTwoClients : Config :=
  { server := serverSpec,
    client := [{ name := "alice", private_key := some "KEYA", address := "5" },
      { name := "bob", private_key := some "KEYB", address := "6" }] }

/-- An oracle on which every conf-file write fails but QR encoding, image
saving and the manifest write succeed. -/
def oracleConfFails : WriteOracle :=
  { confWrite := fun _ _ => false, qrNew := fun _ => true,
    imgSave := fun _ => true, manifestWrite := true }

/-! ## String and list helpers -/

theorem string_eq_of_data : ∀ (a b : String), a.data = b.data → a = b
  | ⟨_⟩, ⟨_⟩, rfl => rfl

theorem strMerge (a b c x : String) (h : a ++ b = c) : a ++ (b ++ x) = c ++ x := by
  rw [← String.append_assoc, h]

theorem strAppendEmpty (s : String) : s ++ "" = s :=
  string_eq_of_data _ _ (by show s.data ++ [] = s.data; simp)

theorem strDataAppend (a b : String) : (a ++ b).data = a.data ++ b.data := rfl

theorem strDataEmpty : ("" : String).data = [] := rfl

theorem isPrefixOf_append_self (p s : List Char) : p.isPrefixOf (p ++ s) = true := by
  induction p with
  | nil => simp [List.isPrefixOf]
  | cons a as ih => simp [List.isPrefixOf, ih]

theorem isPrefixOf_nil_eq_false (p : List Char) (hp : p ≠ []) :
    p.isPrefixOf ([] : List Char) = false := by
  cases p with
  | nil => exact absurd rfl hp
  | cons a as => rfl

/-! ## Lemmas about `replaceAll` (Rust `str::replace`) -/

theorem replaceAllAux_no_match (pat rep : List Char) :
    ∀ fuel s, s.length ≤ fuel → (∀ n, pat.isPrefixOf (List.drop n s) = false) →
    replaceAllAux pat rep fuel s = s := by
  intro fuel
  induction fuel with
  | zero =>
    intro s hs h
    cases s with
    | nil => rfl
    | cons c rest => simp at hs
  | succ f ih =>
    intro s hs h
    cases s with
    | nil => rfl
    | cons c rest =>
      have hc : pat.isPrefixOf (c :: rest) = false := by
        have h0 := h 0
        simpa using h0
      simp only [replaceAllAux, hc, Bool.false_eq_true, if_false]
      have hrest : replaceAllAux pat rep f rest = rest := by
        apply ih rest (by simp at hs; omega)
        intro n
        have hn := h (n + 1)
        simpa using hn
      rw [hrest]

theorem replaceAllAux_scan (pat rep : List Char) :
    ∀ (pre rest : List Char) fuel, pre.length + rest.length ≤ fuel →
    (∀ n, n < pre.length → pat.isPrefixOf (List.drop n (pre ++ rest)) = false) →
    replaceAllAux pat rep fuel (pre ++ rest) =
      pre ++ replaceAllAux pat rep (fuel - pre.length) rest := by
  intro pre
  induction pre with
  | nil => intro rest fuel h1 h2; simp
  | cons c pre' ih =>
    intro rest fuel h1 h2
    cases fuel with
    | zero => simp at h1
    | succ f =>
      have hc : pat.isPrefixOf (c :: (pre' ++ rest)) = false := by
        have h0 := h2 0 (by simp)
        simpa using h0
      simp only [List.cons_append, replaceAllAux, List.append_eq, hc,
        Bool.false_eq_true, if_false]
      have hih := ih rest f (by simp at h1; omega) (fun n hn => by
        have := h2 (n + 1) (by simp; omega)
        simpa using this)
      rw [hih]
      have hf : f + 1 - (c :: pre').length = f - pre'.length := by
        simp [Nat.succ_sub_succ]
      simp [hf]

theorem replaceAll_single_occurrence (pat rep pre post : List Char) (hpat : pat ≠ [])
    (hpre : ∀ n, n < pre.length →
      pat.isPrefixOf (List.drop n (pre ++ pat ++ post)) = false)
    (hpost : ∀ n, pat.isPrefixOf (List.drop n post) = false) :
    replaceAll (pre ++ pat ++ post) pat rep = pre ++ rep ++ post := by
  have hpre' : ∀ n, n < pre.length →
      pat.isPrefixOf (List.drop n (pre ++ (pat ++ post))) = false := by
    intro n hn
    have h := hpre n hn
    rwa [List.append_assoc] at h
  unfold replaceAll
  rw [List.append_assoc]
  rw [replaceAllAux_scan pat rep pre (pat ++ post) (pre ++ (pat ++ post)).length
    (by simp) hpre']
  have hlen : (pre ++ (pat ++ post)).length - pre.length =
      pat.length + post.length := by
    simp
  rw [hlen]
  have hstep : replaceAllAux pat rep (pat.length + post.length) (pat ++ post) =
      rep ++ post := by
    cases pat with
    | nil => exact absurd rfl hpat
    | cons p0 ps =>
      have hfuel : (p0 :: ps).length + post.length = ps.length + post.length + 1 := by
        simp [List.length_cons]; omega
      rw [hfuel]
      have hpfx : (p0 :: ps).isPrefixOf (p0 :: (ps ++ post)) = true :=
        isPrefixOf_append_self (p0 :: ps) post
      show replaceAllAux (p0 :: ps) rep (ps.length + post.length + 1)
        (p0 :: (ps ++ post)) = rep ++ post
      simp only [replaceAllAux]
      rw [if_pos hpfx]
      have hdrop : List.drop (p0 :: ps).length (p0 :: (ps ++ post)) = post := by
        rw [show (p0 :: (ps ++ post)) = (p0 :: ps) ++ post from rfl]
        simp
      rw [hdrop]
      rw [replaceAllAux_no_match (p0 :: ps) rep (ps.length + post.length) post
        (by omega) hpost]
  rw [hstep]
  exact (List.append_assoc pre rep post).symm

/-! ## Base64 lemmas -/

theorem b64Val_b64Char : ∀ v, v < 64 → b64Val (b64Char v) = some v := by decide

theorem b64Char_ne_pad : ∀ v, v < 64 → b64Char v ≠ '=' := by decide

theorem decodeB64_encodeB64 :
    ∀ (bs : List Nat), (∀ b ∈ bs, b < 256) → decodeB64 (encodeB64 bs) = some bs
  | [], _ => rfl
  | [b1], h => by
    have hb1 : b1 < 256 := h b1 (by simp)
    have h1 : b64Val (b64Char (b1 / 4)) = some (b1 / 4) :=
      b64Val_b64Char _ (by omega)
    have h2 : b64Val (b64Char (b1 % 4 * 16)) = some (b1 % 4 * 16) :=
      b64Val_b64Char _ (by omega)
    show decodeB64 [b64Char (b1 / 4), b64Char (b1 % 4 * 16), '=', '='] = some [b1]
    simp [decodeB64, h1, h2]
    omega
  | [b1, b2], h => by
    have hb1 : b1 < 256 := h b1 (by simp)
    have hb2 : b2 < 256 := h b2 (by simp)
    have h1 : b64Val (b64Char (b1 / 4)) = some (b1 / 4) :=
      b64Val_b64Char _ (by omega)
    have h2 : b64Val (b64Char (b1 % 4 * 16 + b2 / 16)) =
        some (b1 % 4 * 16 + b2 / 16) := b64Val_b64Char _ (by omega)
    have h3 : b64Val (b64Char (b2 % 16 * 4)) = some (b2 % 16 * 4) :=
      b64Val_b64Char _ (by omega)
    have hne3 : b64Char (b2 % 16 * 4) ≠ '=' := b64Char_ne_pad _ (by omega)
    show decodeB64 [b64Char (b1 / 4), b64Char (b1 % 4 * 16 + b2 / 16),
      b64Char (b2 % 16 * 4), '='] = some [b1, b2]
    simp [decodeB64, h1, h2, h3, hne3]
    omega
  | b1 :: b2 :: b3 :: rest, h => by
    have hb1 : b1 < 256 := h b1 (by simp)
    have hb2 : b2 < 256 := h b2 (by simp)
    have hb3 : b3 < 256 := h b3 (by simp)
    have ih := decodeB64_encodeB64 rest (fun b hb => h b (by simp [hb]))
    have h1 : b64Val (b64Char (b1 / 4)) = some (b1 / 4) :=
      b64Val_b64Char _ (by omega)
    have h2 : b64Val (b64Char (b1 % 4 * 16 + b2 / 16)) =
        some (b1 % 4 * 16 + b2 / 16) := b64Val_b64Char _ (by omega)
    have h3 : b64Val (b64Char (b2 % 16 * 4 + b3 / 64)) =
        some (b2 % 16 * 4 + b3 / 64) := b64Val_b64Char _ (by omega)
    have h4 : b64Val (b64Char (b3 % 64)) = some (b3 % 64) :=
      b64Val_b64Char _ (by omega)
    have hne3 : b64Char (b2 % 16 * 4 + b3 / 64) ≠ '=' :=
      b64Char_ne_pad _ (by omega)
    have hne4 : b64Char (b3 % 64) ≠ '=' := b64Char_ne_pad _ (by omega)
    show decodeB64 (b64Char (b1 / 4) :: b64Char (b1 % 4 * 16 + b2 / 16) ::
      b64Char (b2 % 16 * 4 + b3 / 64) :: b64Char (b3 % 64) :: encodeB64 rest) =
      some (b1 :: b2 :: b3 :: rest)
    simp [decodeB64, h1, h2, h3, h4, hne3, hne4, ih]
    omega

theorem encodeB64_length :
    ∀ (bs : List Nat), (encodeB64 bs).length = (bs.length + 2) / 3 * 4
  | [] => rfl
  | [b1] => by simp [encodeB64]
  | [b1, b2] => by simp [encodeB64]
  | b1 :: b2 :: b3 :: rest => by
    have ih := encodeB64_length rest
    simp [encodeB64, ih]
    omega

/-! ## Key-fill pass lemmas -/

theorem fillKeysAux_isSome (gen : Nat → List Nat) :
    ∀ j clients c, c ∈ fillKeysAux gen j clients → c.private_key.isSome = true := by
  intro j clients
  induction clients generalizing j with
  | nil => intro c hc; simp [fillKeysAux] at hc
  | cons c0 rest ih =>
    intro c hc
    cases hk : c0.private_key with
    | some k =>
      simp only [fillKeysAux, hk] at hc
      rcases List.mem_cons.mp hc with h | h
      · rw [h, hk]; rfl
      · exact ih j c h
    | none =>
      simp only [fillKeysAux, hk] at hc
      rcases List.mem_cons.mp hc with h | h
      · rw [h]; rfl
      · exact ih (j + 1) c h

theorem fillKeysAux_zip_spec (gen : Nat → List Nat) :
    ∀ j clients cin cout,
    (cin, cout) ∈ List.zip clients (fillKeysAux gen j clients) →
    (cin.private_key.isSome = true ∧ cout = cin) ∨
      (cin.private_key = none ∧ ∃ i, cout = withGeneratedKey cin (gen i)) := by
  intro j clients
  induction clients generalizing j with
  | nil => intro cin cout hc; simp [fillKeysAux] at hc
  | cons c0 rest ih =>
    intro cin cout hc
    cases hk : c0.private_key with
    | some k =>
      simp only [fillKeysAux, hk, List.zip_cons_cons] at hc
      rcases List.mem_cons.mp hc with h | h
      · rw [Prod.mk.injEq] at h
        obtain ⟨h1, h2⟩ := h
        left
        refine ⟨?_, by rw [h2, h1]⟩
        rw [h1, hk]; rfl
      · exact ih j cin cout h
    | none =>
      simp only [fillKeysAux, hk, List.zip_cons_cons] at hc
      rcases List.mem_cons.mp hc with h | h
      · rw [Prod.mk.injEq] at h
        obtain ⟨h1, h2⟩ := h
        right
        refine ⟨by rw [h1]; exact hk, j, ?_⟩
        rw [h2, h1]
      · exact ih (j + 1) cin cout h

/-! ## Rendering lemmas -/

theorem gcc_some_eq (c : ClientConfig) (s : ServerConfig) (k : String)
    (hk : c.private_key = some k) :
    generate_client_config c s = Except.ok
      ("[Interface]\nPrivateKey = " ++ k ++
        "\nAddress = " ++ resolvedAddress s.subnet c.address ++
        "\nDNS = " ++ s.dns ++
        "\n\n[Peer]\nPublicKey = " ++ s.public_key ++
        "\nEndpoint = " ++ s.host ++ ":" ++ s.port ++
        "\nAllowedIPs = 0.0.0.0/0\nPersistentKeepalive = 25\n") := by
  simp [generate_client_config, hk]

theorem gcc_isOk (c : ClientConfig) (s : ServerConfig)
    (h : c.private_key.isSome = true) :
    ∃ t, generate_client_config c s = Except.ok t := by
  cases hk : c.private_key with
  | none => rw [hk] at h; simp at h
  | some k => exact ⟨_, gcc_some_eq c s k hk⟩

/-! ## Serialization round-trip lemmas -/

theorem parseServer_roundtrip (s : ServerConfig) :
    parseServer (serverToJson s) = some s := rfl

theorem parseClient_roundtrip (c : ClientConfig) :
    parseClient (clientToJson c) = some c := by
  cases c with
  | mk n k a =>
    cases k with
    | none => rfl
    | some k0 => rfl

theorem parseClients_roundtrip : ∀ (l : List ClientConfig),
    parseClients (l.map clientToJson) = some l
  | [] => rfl
  | c :: rest => by
    simp [List.map, parseClients, parseClient_roundtrip c,
      parseClients_roundtrip rest]

theorem parseConfig_roundtrip (cfg : Config) :
    parseConfig (configToJson cfg) = some cfg := by
  show parseConfig (Json.obj [("server", serverToJson cfg.server),
    ("client", Json.arr (cfg.client.map clientToJson))]) = some cfg
  simp [parseConfig, getField, parseServer_roundtrip, parseClients_roundtrip]

/-! ## Run-loop lemmas -/

theorem processClients_complete (w : WriteOracle) (server : ServerConfig)
    (hqr : ∀ s, w.qrNew s = true) (himg : ∀ p, w.imgSave p = true) :
    ∀ clients, (∀ c ∈ clients, c.private_key.isSome = true) →
    ∃ evs, processClients w server clients = some evs ∧
      ∀ c ∈ clients, RunEvent.confWritten c.name ∈ evs ∨
        RunEvent.confFailed c.name ∈ evs := by
  intro clients
  induction clients with
  | nil => intro h; exact ⟨[], rfl, by simp⟩
  | cons c0 rest ih =>
    intro h
    obtain ⟨t, ht⟩ := gcc_isOk c0 server (h c0 (by simp))
    obtain ⟨evs, hevs, hmem⟩ := ih (fun c hc => h c (by simp [hc]))
    refine ⟨(if w.confWrite ("wg-clients/" ++ c0.name ++ ".conf") t
      then RunEvent.confWritten c0.name else RunEvent.confFailed c0.name) ::
      RunEvent.qrWritten c0.name :: evs, ?_, ?_⟩
    · simp [processClients, ht, hqr, himg, hevs]
    · intro c hc
      rcases List.mem_cons.mp hc with hceq | hcrest
      · subst hceq
        cases hw : w.confWrite ("wg-clients/" ++ c.name ++ ".conf") t with
        | true => left; simp [hw]
        | false => right; simp [hw]
      · rcases hmem c hcrest with hl | hr
        · left; simp [hl]
        · right; simp [hr]

/-! ## Claim C1 -/

/-- Claim C1 counterexample: on a subnet template containing the placeholder
token twice and client address "5", the code's substitution (main.rs:42,
`str::replace`) yields "55" — every occurrence replaced — which differs from
the single-substitution result the claim demands (the spec-modelled
`spec_replaceFirst`). -/
theorem resolvedAddress_not_single_substitution :
    resolvedAddress "\x7baddress\x7d\x7baddress\x7d" "5" = "55" ∧
    resolvedAddress "\x7baddress\x7d\x7baddress\x7d" "5" ≠
      spec_replaceFirst "\x7baddress\x7d\x7baddress\x7d" placeholderToken "5" := by
  constructor
  · decide
  · decide

/-- Claim C1 (amended): rendering resolves the address by replacing every
leftmost non-overlapping occurrence of the placeholder token in
`server.subnet` with `client.address`; when the template contains the token
exactly once (it splits as `pre ++ token ++ post` with no occurrence starting
inside `pre` and none inside `post`), exactly one substitution is performed,
leaving all other characters untouched; a template containing the token twice
has both occurrences replaced. -/
theorem resolvedAddress_single_occurrence_exact :
    (∀ (subnet addr : String) (pre post : List Char),
      subnet.toList = pre ++ placeholderToken.toList ++ post →
      (∀ n, n < pre.length →
        placeholderToken.toList.isPrefixOf (List.drop n subnet.toList) = false) →
      (∀ n, n ≤ post.length →
        placeholderToken.toList.isPrefixOf (List.drop n post) = false) →
      (resolvedAddress subnet addr).toList = pre ++ addr.toList ++ post) ∧
    resolvedAddress "\x7baddress\x7d\x7baddress\x7d" "5" = "55" := by
  constructor
  · intro subnet addr pre post hsplit hpre hpost
    have hlist : (resolvedAddress subnet addr).toList =
        replaceAll subnet.toList placeholderToken.toList addr.toList := rfl
    rw [hlist, hsplit]
    apply replaceAll_single_occurrence _ _ _ _ (by decide)
    · intro n hn
      have h := hpre n hn
      rwa [hsplit] at h
    · intro n
      by_cases hn : n ≤ post.length
      · exact hpost n hn
      · rw [List.drop_eq_nil_of_le (by omega)]
        exact isPrefixOf_nil_eq_false _ (by decide)
  · decide

/-- Witness for the amended C1 theorem: on the spec's concrete subnet template
`10.0.0.\x7baddress\x7d/24` with address `5`, exactly the token is replaced. -/
theorem resolvedAddress_single_occurrence_exact_witness :
    (resolvedAddress "10.0.0.\x7baddress\x7d/24" "5").toList =
      "10.0.0.".toList ++ "5".toList ++ "/24".toList :=
  resolvedAddress_single_occurrence_exact.1 "10.0.0.\x7baddress\x7d/24" "5"
    "10.0.0.".toList "/24".toList (by decide) (by decide) (by decide)

/-! ## Claim C2 -/

/-- Claim C2: every client lacking a private key in the input receives from
the key-fill pass — and hence carries in the final manifest — a key string
that decodes as valid standard base64 (with padding) to exactly 32 bytes. -/
theorem generated_key_decodes_to_32_bytes (gen : Nat → List Nat)
    (hgen : ∀ i, (gen i).length = 32 ∧ ∀ b ∈ gen i, b < 256)
    (cfg : Config) (cin cout : ClientConfig)
    (hmem : (cin, cout) ∈ List.zip cfg.client (fillConfig gen cfg).client)
    (hnone : cin.private_key = none) :
    ∃ s bytes, cout.private_key = some s ∧ decodeB64 s.toList = some bytes ∧
      bytes.length = 32 ∧
      getField (clientFields cout) "private_key" = some (Json.str s) := by
  rcases fillKeysAux_zip_spec gen 0 cfg.client cin cout hmem with
    ⟨hs, _⟩ | ⟨_, i, hout⟩
  · rw [hnone] at hs; simp at hs
  · refine ⟨generate_private_key (gen i), gen i, ?_, ?_, (hgen i).1, ?_⟩
    · rw [hout]; rfl
    · show decodeB64 (encodeB64 (gen i)) = some (gen i)
      exact decodeB64_encodeB64 (gen i) (hgen i).2
    · rw [hout]
      simp [clientFields, getField, withGeneratedKey]

/-- Witness for C2: with the all-zero rng stream and a single keyless client,
the generated key decodes to 32 bytes. -/
theorem generated_key_decodes_to_32_bytes_witness :
    ∃ s bytes, (withGeneratedKey clientNoKey (genZero 0)).private_key = some s ∧
      decodeB64 s.toList = some bytes ∧ bytes.length = 32 ∧
      getField (clientFields (withGeneratedKey clientNoKey (genZero 0)))
        "private_key" = some (Json.str s) :=
  generated_key_decodes_to_32_bytes genZero
    (fun i => ⟨by simp [genZero], fun b hb => by simp [genZero] at hb; omega⟩)
    { server := serverSpec, client := [clientNoKey] } clientNoKey
    (withGeneratedKey clientNoKey (genZero 0)) (by decide) rfl

/-! ## Claim C3 -/

/-- Claim C3: the key-fill pass leaves every client with a present private key
completely unchanged — the client in the post-fill configuration equals the
input client, and the manifest records exactly the input key for it. -/
theorem fill_preserves_present_keys (gen : Nat → List Nat) (cfg : Config)
    (cin cout : ClientConfig) (k : String)
    (hmem : (cin, cout) ∈ List.zip cfg.client (fillConfig gen cfg).client)
    (hk : cin.private_key = some k) :
    cout = cin ∧ getField (clientFields cout) "private_key" =
      some (Json.str k) := by
  rcases fillKeysAux_zip_spec gen 0 cfg.client cin cout hmem with
    ⟨_, hout⟩ | ⟨hnone, _⟩
  · refine ⟨hout, ?_⟩
    rw [hout]
    simp [clientFields, getField, hk]
  · rw [hk] at hnone; cases hnone

/-- Witness for C3: a client with key "CLIENTPRIVKEY" passes through the fill
pass untouched. -/
theorem fill_preserves_present_keys_witness :
    clientSpec = clientSpec ∧
      getField (clientFields clientSpec) "private_key" =
        some (Json.str "CLIENTPRIVKEY") :=
  fill_preserves_present_keys genZero
    { server := serverSpec, client := [clientSpec] } clientSpec clientSpec
    "CLIENTPRIVKEY" (by decide) rfl

/-! ## Claim C4 -/

/-- Claim C4: for every client with a present key, the rendered profile is
byte-exact — an `[Interface]` block, the key/address/DNS lines, exactly one
blank line, the `[Peer]` block lines in order, each line newline-terminated
(so the text carries a trailing newline); and on the spec's concrete scenario
the full text (including `Address = 10.0.0.5/24` and
`Endpoint = vpn.example.com:51820`) is exactly as required. -/
theorem profile_text_exact :
    (∀ (c : ClientConfig) (s : ServerConfig) (pk : String),
      c.private_key = some pk →
      generate_client_config c s = Except.ok (profileFromLines
        ["[Interface]", "PrivateKey = " ++ pk,
          "Address = " ++ resolvedAddress s.subnet c.address,
          "DNS = " ++ s.dns, "", "[Peer]",
          "PublicKey = " ++ s.public_key,
          "Endpoint = " ++ s.host ++ ":" ++ s.port,
          "AllowedIPs = 0.0.0.0/0", "PersistentKeepalive = 25"])) ∧
    generate_client_config clientSpec serverSpec = Except.ok
      "[Interface]\nPrivateKey = CLIENTPRIVKEY\nAddress = 10.0.0.5/24\nDNS = 1.1.1.1\n\n[Peer]\nPublicKey = SERVERPUBKEY\nEndpoint = vpn.example.com:51820\nAllowedIPs = 0.0.0.0/0\nPersistentKeepalive = 25\n" := by
  constructor
  · intro c s pk hk
    rw [gcc_some_eq c s pk hk]
    refine congrArg Except.ok ?_
    apply string_eq_of_data
    simp only [profileFromLines, List.foldr_cons, List.foldr_nil, strDataAppend,
      strDataEmpty, List.append_assoc, List.cons_append, List.nil_append,
      List.append_nil]
  · rw [gcc_some_eq clientSpec serverSpec "CLIENTPRIVKEY" rfl]
    refine congrArg Except.ok ?_
    apply string_eq_of_data
    decide

/-- Witness for C4 at the spec's concrete scenario inputs. -/
theorem profile_text_exact_witness :
    generate_client_config clientSpec serverSpec = Except.ok (profileFromLines
      ["[Interface]", "PrivateKey = " ++ "CLIENTPRIVKEY",
        "Address = " ++ resolvedAddress serverSpec.subnet clientSpec.address,
        "DNS = " ++ serverSpec.dns, "", "[Peer]",
        "PublicKey = " ++ serverSpec.public_key,
        "Endpoint = " ++ serverSpec.host ++ ":" ++ serverSpec.port,
        "AllowedIPs = 0.0.0.0/0", "PersistentKeepalive = 25"]) :=
  profile_text_exact.1 clientSpec serverSpec "CLIENTPRIVKEY" rfl

/-! ## Claim C5 -/

/-- Claim C5 counterexample: with both clients' keys present and an oracle on
which saving a QR image file fails (main.rs:69 `image.save(..).unwrap()`),
the run aborts — the second client is never processed and the manifest-write
step is never reached — contradicting the claim that an image-file write
failure is tolerated. -/
theorem run_aborts_on_image_save_failure :
    runAfterFill oracleImgFails cfgTwoClients = none := by decide

/-- Claim C5 (amended): a failure to write a client's profile (.conf) file is
only reported and does not abort the run — under any pattern of conf-write
failures (QR encoding and image saving succeeding), every client is still
processed (each receives a conf-written or conf-failed event) and the run
reaches the manifest-write step; a failed QR image save, by contrast, aborts
the run. -/
theorem conf_write_failure_tolerated (w : WriteOracle) (cfg : Config)
    (hqr : ∀ s, w.qrNew s = true) (himg : ∀ p, w.imgSave p = true)
    (hkeys : ∀ c ∈ cfg.client, c.private_key.isSome = true) :
    ∃ evs, runAfterFill w cfg = some evs ∧
      (∀ c ∈ cfg.client, RunEvent.confWritten c.name ∈ evs ∨
        RunEvent.confFailed c.name ∈ evs) ∧
      (RunEvent.manifestWritten ∈ evs ∨ RunEvent.manifestFailed ∈ evs) := by
  obtain ⟨evs0, hp, hmem⟩ :=
    processClients_complete w cfg.server hqr himg cfg.client hkeys
  refine ⟨evs0 ++ [if w.manifestWrite then RunEvent.manifestWritten
    else RunEvent.manifestFailed], ?_, ?_, ?_⟩
  · simp [runAfterFill, hp]
  · intro c hc
    rcases hmem c hc with h | h
    · left; simp [h]
    · right; simp [h]
  · cases hm : w.manifestWrite with
    | false => right; simp [hm]
    | true => left; simp [hm]

/-- Witness for the amended C5 theorem: on an oracle failing every conf write,
both clients are still processed and the manifest step is reached. -/
theorem conf_write_failure_tolerated_witness :
    ∃ evs, runAfterFill oracleConfFails cfgTwoClients = some evs ∧
      (∀ c ∈ cfgTwoClients.client, RunEvent.confWritten c.name ∈ evs ∨
        RunEvent.confFailed c.name ∈ evs) ∧
      (RunEvent.manifestWritten ∈ evs ∨ RunEvent.manifestFailed ∈ evs) :=
  conf_write_failure_tolerated oracleConfFails cfgTwoClients (fun _ => rfl)
    (fun _ => rfl) (by decide)

/-! ## Claim C6 -/

/-- Claim C6 counterexample: a client carrying an empty-string private key in
the input keeps it through the key-fill pass, so the post-fill invariant
"every client has a non-empty privateKey" fails on such inputs. -/
theorem fill_keeps_empty_string_key :
    ∃ c ∈ (fillConfig genZero
      { server := serverSpec, client := [clientEmptyKey] }).client,
      c.private_key = some "" := by decide

/-- Claim C6 (amended): after the key-fill pass every client has a present
(`some`) private key — this holds for the rest of the run since nothing later
mutates the configuration — and every client that lacked a key in the input
receives a non-empty generated key (44 base64 characters); a pre-supplied
empty-string key, however, is preserved as the empty string rather than being
replaced by a non-empty one. -/
theorem fill_presence_invariant (gen : Nat → List Nat)
    (hgen : ∀ i, (gen i).length = 32) (cfg : Config) :
    (∀ c ∈ (fillConfig gen cfg).client, c.private_key.isSome = true) ∧
    (∀ cin cout, (cin, cout) ∈ List.zip cfg.client (fillConfig gen cfg).client →
      cin.private_key = none →
      ∃ k, cout.private_key = some k ∧ k.length = 44 ∧ k ≠ "") := by
  constructor
  · intro c hc
    exact fillKeysAux_isSome gen 0 cfg.client c hc
  · intro cin cout hmem hnone
    rcases fillKeysAux_zip_spec gen 0 cfg.client cin cout hmem with
      ⟨hs, _⟩ | ⟨_, i, hout⟩
    · rw [hnone] at hs; simp at hs
    · have hlen : (generate_private_key (gen i)).length = 44 := by
        show (encodeB64 (gen i)).length = 44
        rw [encodeB64_length, hgen i]
      refine ⟨generate_private_key (gen i), by rw [hout]; rfl, hlen, ?_⟩
      intro heq
      rw [heq] at hlen
      exact absurd hlen (by decide)

/-- Witness for the amended C6 theorem on a one-client keyless configuration
with the all-zero rng stream. -/
theorem fill_presence_invariant_witness :
    (∀ c ∈ (fillConfig genZero
      { server := serverSpec, client := [clientNoKey] }).client,
      c.private_key.isSome = true) ∧
    (∀ cin cout, (cin, cout) ∈ List.zip
      ({ server := serverSpec, client := [clientNoKey] } : Config).client
      (fillConfig genZero
        { server := serverSpec, client := [clientNoKey] }).client →
      cin.private_key = none →
      ∃ k, cout.private_key = some k ∧ k.length = 44 ∧ k ≠ "") :=
  fill_presence_invariant genZero (fun i => by simp [genZero])
    { server := serverSpec, client := [clientNoKey] }

/-! ## Claim C7 -/

/-- Claim C7: rendering fails fatally — with a panic message naming the
offending client — if and only if the client's private key is absent; and for
every client of a configuration on which the key-fill pass has run, this
failure branch is unreachable (rendering returns a profile). -/
theorem render_panic_iff_missing_key :
    (∀ (c : ClientConfig) (s : ServerConfig),
      generate_client_config c s =
        Except.error ("Private key not provided for client " ++ c.name) ↔
      c.private_key = none) ∧
    (∀ (gen : Nat → List Nat) (cfg : Config) (c : ClientConfig),
      c ∈ (fillConfig gen cfg).client →
      ∃ t, generate_client_config c (fillConfig gen cfg).server =
        Except.ok t) := by
  constructor
  · intro c s
    constructor
    · intro h
      cases hk : c.private_key with
      | none => rfl
      | some k =>
        rw [gcc_some_eq c s k hk] at h
        exact Except.noConfusion h
    · intro h
      simp [generate_client_config, h]
  · intro gen cfg c hc
    exact gcc_isOk c _ (fillKeysAux_isSome gen 0 cfg.client c hc)

/-- Witness for C7: the panic-message equivalence at a concrete keyless client,
and unreachability at a concrete post-fill client. -/
theorem render_panic_iff_missing_key_witness :
    (generate_client_config clientNoKey serverSpec =
      Except.error ("Private key not provided for client " ++ clientNoKey.name) ↔
      clientNoKey.private_key = none) ∧
    (∃ t, generate_client_config clientSpec
      (fillConfig genZero
        { server := serverSpec, client := [clientSpec] }).server =
      Except.ok t) :=
  ⟨render_panic_iff_missing_key.1 clientNoKey serverSpec,
    render_panic_iff_missing_key.2 genZero
      { server := serverSpec, client := [clientSpec] } clientSpec (by decide)⟩

/-! ## Claim C8 -/

/-- Claim C8: rendering is a pure, deterministic function of the (client,
server) pair — identical inputs yield byte-identical profile text, with no
dependence on any other state (the embedding takes no other inputs). -/
theorem render_deterministic (c1 : ClientConfig) (s1 : ServerConfig)
    (c2 : ClientConfig) (s2 : ServerConfig) (hc : c1 = c2) (hs : s1 = s2) :
    generate_client_config c1 s1 = generate_client_config c2 s2 := by
  rw [hc, hs]

/-- Witness for C8 at the spec's concrete scenario inputs. -/
theorem render_deterministic_witness :
    generate_client_config clientSpec serverSpec =
      generate_client_config clientSpec serverSpec :=
  render_deterministic clientSpec serverSpec clientSpec serverSpec rfl rfl

/-! ## Claim C9 -/

/-- Claim C9: serializing the post-fill configuration to the manifest shape
and parsing it back through the same input model yields the post-fill
configuration, field for field. -/
theorem manifest_roundtrip (gen : Nat → List Nat) (cfg : Config)
    (hkeys : ∀ c ∈ (fillConfig gen cfg).client, c.private_key.isSome = true) :
    parseConfig (configToJson (fillConfig gen cfg)) =
      some (fillConfig gen cfg) :=
  parseConfig_roundtrip (fillConfig gen cfg)

/-- Witness for C9 on a concrete two-client configuration. -/
theorem manifest_roundtrip_witness :
    parseConfig (configToJson (fillConfig genZero cfgTwoClients)) =
      some (fillConfig genZero cfgTwoClients) :=
  manifest_roundtrip genZero cfgTwoClients (by decide)

/-! ## Claim C10 -/

/-- Claim C10: the rendered profile text does not depend on the client's name:
two clients identical except for their name (same present key, same address)
render to byte-identical profile text against any server. -/
theorem render_ignores_name (c1 c2 : ClientConfig) (s : ServerConfig)
    (k : String) (h1 : c1.private_key = some k) (h2 : c2.private_key = some k)
    (haddr : c1.address = c2.address) :
    generate_client_config c1 s = generate_client_config c2 s := by
  rw [gcc_some_eq c1 s k h1, gcc_some_eq c2 s k h2, haddr]

/-- Witness for C10: `alice` and `bob` with the same key and address render
identically. -/
theorem render_ignores_name_witness :
    generate_client_config clientSpec serverSpec =
      generate_client_config clientSpecRenamed serverSpec :=
  render_ignores_name clientSpec clientSpecRenamed serverSpec "CLIENTPRIVKEY"
    rfl rfl rfl

end WgClients
